import Mathlib

/-!
Shallow embedding of the workload-classification pipeline of
`src/metrics.py` (NYC service-request analytics).

Conventions of the embedding:
* pandas floating-point numbers are modelled as exact rationals (`ℚ`);
  a floating-point `NaN` produced by an aggregation is modelled as `none`
  of an `Option` type.
* `DataFrame.round(k)` is numpy round-half-to-even, modelled by
  `roundHalfEven` on `ℚ`.
* A pandas `groupby` over one or more key columns drops every row in which
  a key is null (`dropna=True` is the pandas default), and a grouped
  "mapping" is modelled as an association list keyed by the distinct
  observed keys.
* Timestamps are modelled at calendar-day granularity `(year, month, day)`;
  every use in `metrics.py` projects `created_date` either to its calendar
  date (`dt.date`) or to its year-month (`dt.to_period('M')`), so no claim
  depends on the time of day.
* `rolling(window=w, center=True).mean()` follows pandas'
  `FixedWindowIndexer`: with centring the window at row `i` covers rows
  `[i - (w - 1 - (w-1)/2), i + (w-1)/2]`, and the default
  `min_periods = w` makes the mean defined only when the whole window is
  in range.
* `Series.quantile(q)` is the default linear-interpolation quantile:
  position `h = (n-1)*q` in the ascending sort of the values.
* The script hardcodes the peak percentile `0.98` at line 124; the spec
  (§4.3) treats the percentile as the configuration option
  `peak_percentile`, so the daily-series definitions below take the
  quantile `q` as an explicit parameter, instantiated with `98/100` by the
  script.
-/

set_option maxRecDepth 100000

namespace Metrics

/-- Calendar-day timestamp, the granularity at which `metrics.py` uses
`created_date`. -/
structure Timestamp where
  year : Nat
  month : Nat
  day : Nat
deriving DecidableEq, Repr, Inhabited

/-- Year-month projection, modelling `dt.to_period('M')` (line 83). -/
def Timestamp.ym (t : Timestamp) : Nat × Nat := (t.year, t.month)

/-- One row of the input table (§3 of the spec, columns of line 13 /
`data_fetch.py`).  Nullable columns are `Option`s; `pd.to_datetime(...,
errors='coerce')` turns malformed timestamps into null (`NaT`). -/
structure Request where
  id : Nat
  agency : Option String
  complaint : Option String
  status : Option String
  borough : Option String
  created : Option Timestamp
  closed : Option Timestamp
deriving DecidableEq, Repr, Inhabited

/-- Round-half-to-even to an integer, the rounding used by
`numpy.round` / `DataFrame.round`. -/
def roundHalfEven (q : ℚ) : ℤ :=
  let f := Int.floor q
  let frac := q - (f : ℚ)
  if frac < 1 / 2 then f
  else if 1 / 2 < frac then f + 1
  else if f % 2 = 0 then f else f + 1

/-- Model of `.round(0)`. -/
def round0 (q : ℚ) : ℚ := (roundHalfEven q : ℚ)

/-- Model of `.round(k)` for `k` decimal places. -/
def roundTo (k : Nat) (q : ℚ) : ℚ :=
  (roundHalfEven (q * (10 : ℚ) ^ k) : ℚ) / (10 : ℚ) ^ k

/-- Square root rounded half-to-even to an integer: the value of
`std.round(0)` for a sample variance `v`, evaluated exactly.  Uses that
`⌊√v⌋ = Nat.sqrt ⌊v⌋` for `0 ≤ v` and decides the tie against
`(n + 1/2)^2` in exact arithmetic. -/
def sqrtRound0 (v : ℚ) : ℚ :=
  let n : Nat := Nat.sqrt (Int.floor v).toNat
  let mid : ℚ := ((n : ℚ) + 1 / 2) ^ 2
  if v < mid then (n : ℚ)
  else if mid < v then (n : ℚ) + 1
  else if n % 2 = 0 then (n : ℚ) else (n : ℚ) + 1

/-- Number of occurrences of a key in a list of keys. -/
def countKey {κ : Type} [DecidableEq κ] (ks : List κ) (k : κ) : Nat :=
  (ks.filter fun x => decide (x = k)).length

/-- A `groupby(keys).size()`: the distinct observed keys, each with its
number of occurrences. -/
def groupCounts {κ : Type} [DecidableEq κ] (ks : List κ) : List (κ × Nat) :=
  ks.dedup.map fun k => (k, countKey ks k)

/-! ### Step 2-3: enterprise baselines and monthly agency workload
(lines 61-93) -/

/-- Number of distinct year-months observed among non-null
`created_date`s (line 46). -/
def unique_months (t : List Request) : Nat :=
  ((t.filterMap (·.created)).map Timestamp.ym).dedup.length

/-- Capacity constant chosen by dataset size (lines 61-69). -/
def BASELINE_MONTHLY_CAPACITY (um : Nat) : ℚ :=
  if 6 ≤ um then 50000 else if 3 ≤ um then 30000 else 20000

/-- Workload threshold constant chosen by dataset size (lines 61-69). -/
def WORKLOAD_THRESHOLD (um : Nat) : ℚ :=
  if 6 ≤ um then 40000 else if 3 ≤ um then 25000 else 15000

/-- Utilization threshold (line 71). -/
def UTILIZATION_THRESHOLD : ℚ := 80 / 100

/-- The `(agency_name, year_month)` key of each row having both; rows with
a null agency or null `created_date` are dropped by the two-key `groupby`
of line 86. -/
def monthlyPairs (t : List Request) : List (String × (Nat × Nat)) :=
  t.filterMap fun r =>
    match r.agency, r.created with
    | some a, some c => some (a, c.ym)
    | _, _ => none

/-- Line 86: `df.groupby(['agency_name', 'year_month']).size()`. -/
def monthly_agency_volume (t : List Request) :
    List ((String × (Nat × Nat)) × Nat) :=
  groupCounts (monthlyPairs t)

/-- The distinct agencies appearing in `monthly_agency_volume`. -/
def agencies (t : List Request) : List String :=
  ((monthlyPairs t).map Prod.fst).dedup

/-- The monthly request counts of one agency: the `monthly_requests`
column of the rows of `monthly_agency_volume` for that agency. -/
def agencyMonthCounts (t : List Request) (a : String) : List Nat :=
  ((monthly_agency_volume t).filter fun p => decide (p.1.1 = a)).map Prod.snd

/-- Maximum of a list of counts (pandas `max` aggregation; groups are
never empty in the source, so the default for `[]` is never exercised). -/
def listMax (l : List Nat) : Nat := l.foldr max 0

/-- Minimum of a list of counts (pandas `min` aggregation; groups are
never empty in the source, so the default for `[]` is never exercised). -/
def listMin : List Nat → Nat
  | [] => 0
  | [x] => x
  | x :: y :: xs => min x (listMin (y :: xs))

/-- Sample variance with `ddof = 1` (the square of the pandas `std`
aggregation), on the unrounded counts. -/
def sampleVar (l : List ℚ) : ℚ :=
  let m := l.sum / (l.length : ℚ)
  (l.map fun x => (x - m) ^ 2).sum / ((l.length : ℚ) - 1)

/-- Per-agency summary row of `monthly_agency_avg` (lines 87-93).
`std = none` models the floating-point `NaN` that pandas' `std` produces
on a single-element group. -/
structure AgencySummary where
  mean : ℚ
  max : ℚ
  min : ℚ
  std : Option ℚ
  utilization_rate : ℚ
  workload_flag : Bool
  utilization_flag : Bool
  variability_coefficient : Option ℚ
deriving DecidableEq, Repr

/-- Lines 87-93 for one agency: aggregate its monthly counts with
`['mean', 'max', 'min', 'std']`, apply `.round(0)`, then derive the
utilization columns.  `max` and `min` of integer counts are unchanged by
`.round(0)`; `std` of a single-month group is `NaN` (`none`), and that
`NaN` propagates into `variability_coefficient`. -/
def mkSummary (counts : List Nat) (capacity workload : ℚ) : AgencySummary :=
  let cq : List ℚ := counts.map fun n : Nat => (n : ℚ)
  let meanR : ℚ := round0 (cq.sum / (cq.length : ℚ))
  let stdR : Option ℚ :=
    if counts.length ≤ 1 then none else some (sqrtRound0 (sampleVar cq))
  let util := meanR / capacity
  { mean := meanR
    max := (listMax counts : ℚ)
    min := (listMin counts : ℚ)
    std := stdR
    utilization_rate := util
    workload_flag := decide (workload < meanR)
    utilization_flag := decide (UTILIZATION_THRESHOLD < util)
    variability_coefficient := stdR.map fun s => roundTo 2 (s / meanR) }

/-- Lines 87-93, the whole `monthly_agency_avg` table: one summary per
distinct observed agency.  The script instantiates
`capacity = BASELINE_MONTHLY_CAPACITY (unique_months t)` and
`workload = WORKLOAD_THRESHOLD (unique_months t)`; the spec (§4.2) passes
both explicitly, so they are parameters here. -/
def monthly_agency_avg (t : List Request) (capacity workload : ℚ) :
    List (String × AgencySummary) :=
  (agencies t).map fun a => (a, mkSummary (agencyMonthCounts t a) capacity workload)

/-- Name used by the spec (§4.2) for the operation realised by
`monthly_agency_avg`. -/
def monthly_volumes (t : List Request) (capacity workload : ℚ) :
    List (String × AgencySummary) :=
  monthly_agency_avg t capacity workload

/-! ### Step 4: daily volume, rolling means and peak flags
(lines 117-127) -/

/-- Day-granularity ordering used to sort the grouped dates ascending
(the default `sort=True` of `groupby`). -/
def tsLE (a b : Timestamp) : Prop :=
  a.year < b.year ∨
    (a.year = b.year ∧
      (a.month < b.month ∨ (a.month = b.month ∧ a.day ≤ b.day)))

instance : DecidableRel tsLE := fun a b => by unfold tsLE; infer_instance

instance : IsTotal Timestamp tsLE where
  total a b := by unfold tsLE; omega

instance : IsTrans Timestamp tsLE where
  trans a b c := by unfold tsLE; omega

/-- Strict version of `tsLE`. -/
def tsLT (a b : Timestamp) : Prop := tsLE a b ∧ a ≠ b

/-- Calendar dates of the rows with a non-null `created_date`
(line 117: `df['date'] = df['created_date'].dt.date`; `NaT` rows are
dropped by the `groupby` of line 118). -/
def dates (t : List Request) : List Timestamp := t.filterMap (·.created)

/-- Line 118: `df.groupby('date').size()`, keys ascending. -/
def daily_volume (t : List Request) : List (Timestamp × Nat) :=
  (List.insertionSort tsLE (dates t).dedup).map fun d => (d, countKey (dates t) d)

/-- The `daily_requests` column, as rationals. -/
def dailyCounts (t : List Request) : List ℚ :=
  (daily_volume t).map fun p => ((p.2 : ℚ))

/-- Centered rolling mean of window `w` over a column, pandas
`rolling(window=w, center=True).mean()`: with `offset = (w-1)/2` the
window at row `i` covers rows `i - (w-1-offset) .. i + offset`, and the
default `min_periods = w` yields `none` unless the whole window is in
range. -/
def rollingCenteredMean (w : Nat) (xs : List ℚ) : List (Option ℚ) :=
  let offset := (w - 1) / 2
  let back := w - 1 - offset
  (List.range xs.length).map fun i =>
    if back ≤ i ∧ i + offset < xs.length then
      some (((xs.drop (i - back)).take w).sum / (w : ℚ))
    else none

/-- Linear interpolation of an ascending list of order statistics at a
fractional position `pos`: the value at index `⌊pos⌋`, moved toward the
next order statistic by the fractional part. -/
def interpAt (s : List ℚ) (pos : ℚ) : ℚ :=
  let i : Nat := (Int.floor pos).toNat
  let lo := s.getD i 0
  let hi := s.getD (i + 1) lo
  lo + (pos - (i : ℚ)) * (hi - lo)

/-- Linear-interpolation quantile of a list at `q`, the default
`Series.quantile` method: position `h = (n-1)*q` in the ascending sort,
interpolating between the two neighbouring order statistics. -/
def quantileLinear (l : List ℚ) (q : ℚ) : ℚ :=
  let s := List.insertionSort (· ≤ ·) l
  if s.length = 0 then 0
  else interpAt s (((s.length : ℚ) - 1) * q)

/-- One row of the enriched `daily_volume` frame (lines 118-124). -/
structure DailyStat where
  date : Timestamp
  count : Nat
  rolling_avg_7 : Option ℚ
  rolling_avg_30 : Option ℚ
  peak_flag : Bool
deriving DecidableEq, Repr, Inhabited

/-- Lines 118-124: the daily series with rolling averages and the peak
flag `daily_requests > daily_requests.quantile(q)`.  The script uses
`q = 98/100` (line 124); the quantile is the `peak_percentile`
configuration option of spec §4.3. -/
def dailySeries (q : ℚ) (t : List Request) : List DailyStat :=
  let dv := daily_volume t
  let cs := dailyCounts t
  let r7 := rollingCenteredMean 7 cs
  let r30 := rollingCenteredMean 30 cs
  let thr := quantileLinear cs q
  (List.range dv.length).map fun i =>
    { date := (dv.getD i default).1
      count := (dv.getD i default).2
      rolling_avg_7 := (r7.getD i none)
      rolling_avg_30 := (r30.getD i none)
      peak_flag := decide (thr < ((dv.getD i default).2 : ℚ)) }

/-- The peak-flagged rows of the daily series. -/
def peakRows (q : ℚ) (t : List Request) : List DailyStat :=
  (dailySeries q t).filter (·.peak_flag)

/-- Descending order on daily rows by request count, the sort key of
`nlargest(10, 'daily_requests')`. -/
def byCountDesc (a b : DailyStat) : Prop := b.count ≤ a.count

instance : DecidableRel byCountDesc := fun a b => by
  unfold byCountDesc
  infer_instance

instance : IsTotal DailyStat byCountDesc :=
  ⟨fun a b => le_total b.count a.count⟩

instance : IsTrans DailyStat byCountDesc :=
  ⟨fun _ _ _ h1 h2 => le_trans h2 h1⟩

/-- Line 127: `daily_volume[daily_volume['peak_flag']].nlargest(10,
'daily_requests')` - the flagged rows sorted descending by count
(`keep='first'`: stable for ties), truncated to 10. -/
def peak_days (q : ℚ) (t : List Request) : List DailyStat :=
  (List.insertionSort byCountDesc (peakRows q t)).take 10

/-- Line 265: `peak_dates = set(peak_days['date'].dt.date)`. -/
def peakDates (q : ℚ) (t : List Request) : List Timestamp :=
  (peak_days q t).map (·.date)

/-- Line 266: the exported `is_peak_day` column of one row,
`powerbi_data['date'].isin(peak_dates)`; a row with null `created_date`
has date `NaT`, which is in no date set. -/
def is_peak_day (q : ℚ) (t : List Request) (r : Request) : Bool :=
  match r.created with
  | some c => decide (c ∈ peakDates q t)
  | none => false

/-! ### Step 5: borough statistics (lines 152-161) -/

/-- Borough values of the rows with a non-null borough (null keys are
dropped by the `groupby` of line 152). -/
def boroughs (t : List Request) : List String := t.filterMap (·.borough)

/-- The rows of one borough. -/
def boroughRows (t : List Request) (b : String) : List Request :=
  t.filter fun r => decide (r.borough = some b)

/-- One row of `borough_stats` (lines 152-160): `total_requests`,
`closure_rate`, `service_diversity`, `market_share`, `requests_per_day`.
The aggregation result is `.round(3)`-ed (line 156), which only affects
`closure_rate`, the integer columns being unchanged. -/
structure BoroughSummary where
  total_requests : Nat
  closure_rate : ℚ
  service_diversity : Nat
  market_share : ℚ
  requests_per_day : ℚ
deriving DecidableEq, Repr

/-- Number of requests of one borough whose status is `Closed`. -/
def closedIn (t : List Request) (b : String) : Nat :=
  ((boroughRows t b).filter fun r => decide (r.status = some "Closed")).length

/-- One row of the `borough_stats` aggregation (lines 152-160) for a
borough `b`: count of `unique_key`, mean of `status == 'Closed'` rounded
to 3 places by the `.round(3)` of line 156, `nunique` of
`complaint_type`, then the derived `market_share` and
`requests_per_day`. -/
def boroughSummaryOf (t : List Request) (b : String) : BoroughSummary :=
  let rows := boroughRows t b
  let total := rows.length
  { total_requests := total
    closure_rate := roundTo 3 ((closedIn t b : ℚ) / (total : ℚ))
    service_diversity := (rows.filterMap (·.complaint)).dedup.length
    market_share := ((total : ℚ) / ((boroughs t).length : ℚ)) * 100
    requests_per_day := (total : ℚ) / (((daily_volume t).length : ℚ)) }

/-- Lines 152-161: group by borough (null boroughs dropped), build the
summary of each distinct observed borough, and sort descending by
`total_requests`. -/
def borough_stats (t : List Request) : List (String × BoroughSummary) :=
  List.insertionSort (fun a b => b.2.total_requests ≤ a.2.total_requests)
    ((boroughs t).dedup.map fun b => (b, boroughSummaryOf t b))

/-! ### Concrete input tables used by the claim theorems -/

/-- A request of agency `"A"` created on the given calendar day. -/
def reqOn (y m d : Nat) : Request :=
  { id := 0, agency := some "A", complaint := none, status := none,
    borough := none, created := some ⟨y, m, d⟩, closed := none }

/-- A request of the given borough and status, with a null
`created_date`. -/
def reqIn (b st : String) : Request :=
  { id := 0, agency := none, complaint := none, status := some st,
    borough := some b, created := none, closed := none }

/-- One agency with a single observed month. -/
def exSingle : List Request := [reqOn 2024 1 1]

/-- One agency with monthly counts 1 (2024-01) and 2 (2024-02). -/
def exTwo : List Request := [reqOn 2024 1 1, reqOn 2024 2 1, reqOn 2024 2 2]

/-- A row whose agency is observed but whose `created_date` is null. -/
def exNullDate : List Request :=
  [{ id := 0, agency := some "X", complaint := none, status := none,
     borough := none, created := none, closed := none }]

/-- One row with a null `created_date` next to one dated row. -/
def exNullMix : List Request :=
  [{ id := 1, agency := none, complaint := none, status := none,
     borough := none, created := none, closed := none },
   reqOn 2024 1 1]

/-- The spec scenario: one request per day on 2024-01-01..2024-01-10,
except 50 requests on day 5. -/
def exTenDays : List Request :=
  [reqOn 2024 1 1, reqOn 2024 1 2, reqOn 2024 1 3, reqOn 2024 1 4]
    ++ List.replicate 50 (reqOn 2024 1 5)
    ++ [reqOn 2024 1 6, reqOn 2024 1 7, reqOn 2024 1 8, reqOn 2024 1 9,
        reqOn 2024 1 10]

/-- Thirty consecutive days with one request each. -/
def ex30 : List Request := (List.range 30).map fun i => reqOn 2024 1 (i + 1)

/-- The spec scenario: Manhattan 600 closed of 800, Bronx 100 closed of
200. -/
def exBoroughScen : List Request :=
  List.replicate 600 (reqIn "Manhattan" "Closed")
    ++ List.replicate 200 (reqIn "Manhattan" "Open")
    ++ List.replicate 100 (reqIn "Bronx" "Closed")
    ++ List.replicate 100 (reqIn "Bronx" "Open")

/-- One borough with 1 request closed of 3. -/
def exThirds : List Request :=
  [reqIn "B" "Closed", reqIn "B" "Open", reqIn "B" "Open"]

/-- Twenty-one days: days 1-10 with one request, days 11-21 with five, so
that eleven days exceed the 40th-percentile threshold. -/
def exPeak : List Request :=
  (List.range 21).flatMap fun i =>
    if i < 10 then [reqOn 2024 1 (i + 1)]
    else List.replicate 5 (reqOn 2024 1 (i + 1))

/-! ### Generic helper lemmas -/

theorem getD_map_range {α : Type} (f : Nat → α) {n i : Nat} (h : i < n)
    (d : α) : ((List.range n).map f).getD i d = f i := by
  rw [List.getD_eq_getElem _ _ (by simpa using h)]
  simp

theorem length_dailyCounts (t : List Request) :
    (dailyCounts t).length = (daily_volume t).length := by
  simp [dailyCounts]

theorem length_dailySeries (q : ℚ) (t : List Request) :
    (dailySeries q t).length = (daily_volume t).length := by
  simp [dailySeries]

theorem length_rollingCenteredMean (w : Nat) (xs : List ℚ) :
    (rollingCenteredMean w xs).length = xs.length := by
  simp [rollingCenteredMean]

theorem length_filter_mono {α : Type} (l : List α) (p r : α → Bool)
    (h : ∀ a ∈ l, p a = true → r a = true) :
    (l.filter p).length ≤ (l.filter r).length := by
  rw [← List.countP_eq_length_filter, ← List.countP_eq_length_filter]
  exact List.countP_mono_left h

theorem dailySeries_unfolded (q : ℚ) (t : List Request) :
    dailySeries q t = (List.range (daily_volume t).length).map fun i =>
      { date := ((daily_volume t).getD i default).1
        count := ((daily_volume t).getD i default).2
        rolling_avg_7 := (rollingCenteredMean 7 (dailyCounts t)).getD i none
        rolling_avg_30 := (rollingCenteredMean 30 (dailyCounts t)).getD i none
        peak_flag := decide (quantileLinear (dailyCounts t) q
          < (((daily_volume t).getD i default).2 : ℚ)) } := rfl

/-! ### Monotonicity of the linear-interpolation quantile -/

theorem sorted_getD_le (s : List ℚ) (hs : List.Sorted (· ≤ ·) s)
    {i j : Nat} (hij : i ≤ j) (hj : j < s.length) :
    s.getD i 0 ≤ s.getD j 0 := by
  rcases Nat.eq_or_lt_of_le hij with rfl | hlt
  · exact le_refl _
  · rw [List.getD_eq_getElem s 0 (Nat.lt_trans hlt hj), List.getD_eq_getElem s 0 hj]
    have := hs.rel_get_of_lt (a := ⟨i, Nat.lt_trans hlt hj⟩) (b := ⟨j, hj⟩)
      (by simpa using hlt)
    simpa using this

theorem sorted_getD_succ (s : List ℚ) (hs : List.Sorted (· ≤ ·) s) (i : Nat) :
    s.getD i 0 ≤ s.getD (i + 1) (s.getD i 0) := by
  by_cases h : i + 1 < s.length
  · have h0 : i < s.length := Nat.lt_of_succ_lt h
    rw [List.getD_eq_getElem s _ h, List.getD_eq_getElem s 0 h0]
    have := hs.rel_get_of_lt (a := ⟨i, h0⟩) (b := ⟨i + 1, h⟩)
      (by simp)
    simpa using this
  · rw [List.getD_eq_default s _ (Nat.le_of_not_lt h)]

theorem interpAt_def (s : List ℚ) (pos : ℚ) :
    interpAt s pos = s.getD (Int.floor pos).toNat 0
      + (pos - ((Int.floor pos).toNat : ℚ))
        * (s.getD ((Int.floor pos).toNat + 1) (s.getD (Int.floor pos).toNat 0)
            - s.getD (Int.floor pos).toNat 0) := rfl

theorem interpAt_mono (s : List ℚ) (hs : List.Sorted (· ≤ ·) s)
    {x y : ℚ} (hx : 0 ≤ x) (hxy : x ≤ y) (hy : y ≤ (s.length : ℚ) - 1) :
    interpAt s x ≤ interpAt s y := by
  have hy0 : 0 ≤ y := le_trans hx hxy
  have hfx0 : 0 ≤ Int.floor x := Int.floor_nonneg.mpr hx
  have hfy0 : 0 ≤ Int.floor y := Int.floor_nonneg.mpr hy0
  set ix := (Int.floor x).toNat with hixdef
  set iy := (Int.floor y).toNat with hiydef
  have hxeq : ((ix : ℤ)) = Int.floor x := Int.toNat_of_nonneg hfx0
  have hyeq : ((iy : ℤ)) = Int.floor y := Int.toNat_of_nonneg hfy0
  have hix_le : ((ix : ℚ)) ≤ x := by
    have := Int.floor_le x
    rw [← hxeq] at this
    exact_mod_cast this
  have hix_lt : x < (ix : ℚ) + 1 := by
    have := Int.lt_floor_add_one x
    rw [← hxeq] at this
    exact_mod_cast this
  have hiy_le : ((iy : ℚ)) ≤ y := by
    have := Int.floor_le y
    rw [← hyeq] at this
    exact_mod_cast this
  have hiy_lt : y < (iy : ℚ) + 1 := by
    have := Int.lt_floor_add_one y
    rw [← hyeq] at this
    exact_mod_cast this
  have hiyn : iy + 1 ≤ s.length := by
    have hq : ((iy : ℚ)) ≤ (s.length : ℚ) - 1 := le_trans hiy_le hy
    have hq2 : ((iy : ℚ)) + 1 ≤ (s.length : ℚ) := by linarith
    exact_mod_cast hq2
  have hixiy : ix ≤ iy := by
    rw [hixdef, hiydef]
    exact Int.toNat_le_toNat (Int.floor_le_floor hxy)
  have hlo2hi2 : s.getD iy 0 ≤ s.getD (iy + 1) (s.getD iy 0) :=
    sorted_getD_succ s hs iy
  have hlo1hi1 : s.getD ix 0 ≤ s.getD (ix + 1) (s.getD ix 0) :=
    sorted_getD_succ s hs ix
  rcases Nat.eq_or_lt_of_le hixiy with heq | hlt
  · rw [interpAt_def, interpAt_def, ← hixdef, ← hiydef, ← heq]
    have hmul := mul_le_mul_of_nonneg_right
      (sub_le_sub_right hxy ((ix : ℚ))) (sub_nonneg.mpr hlo1hi1)
    linarith
  · have hix1n : ix + 1 < s.length := lt_of_le_of_lt hlt (Nat.lt_of_succ_le hiyn)
    have hiyn' : iy < s.length := Nat.lt_of_succ_le hiyn
    have hmid : s.getD (ix + 1) (s.getD ix 0) ≤ s.getD iy 0 := by
      have h2 : s.getD (ix + 1) 0 ≤ s.getD iy 0 := sorted_getD_le s hs hlt hiyn'
      rw [List.getD_eq_getElem s _ hix1n]
      rw [List.getD_eq_getElem s 0 hix1n] at h2
      exact h2
    have h1 : interpAt s x ≤ s.getD (ix + 1) (s.getD ix 0) := by
      rw [interpAt_def, ← hixdef]
      have hfrac : x - (ix : ℚ) ≤ 1 := by linarith
      have hmul := mul_le_mul_of_nonneg_right hfrac (sub_nonneg.mpr hlo1hi1)
      linarith
    have h3 : s.getD iy 0 ≤ interpAt s y := by
      rw [interpAt_def, ← hiydef]
      have hfrac : 0 ≤ y - (iy : ℚ) := by linarith
      have hmul := mul_nonneg hfrac (sub_nonneg.mpr hlo2hi2)
      linarith
    exact le_trans (le_trans h1 hmid) h3

theorem quantileLinear_mono (l : List ℚ) {a b : ℚ}
    (h0 : 0 ≤ a) (hab : a ≤ b) (h1 : b ≤ 1) :
    quantileLinear l a ≤ quantileLinear l b := by
  unfold quantileLinear
  by_cases hn : (List.insertionSort (· ≤ ·) l).length = 0
  · rw [if_pos hn, if_pos hn]
  · rw [if_neg hn, if_neg hn]
    set s := List.insertionSort (· ≤ ·) l with hsdef
    have hs : List.Sorted (· ≤ ·) s := List.sorted_insertionSort _ l
    have hn1 : 1 ≤ s.length := Nat.one_le_iff_ne_zero.mpr hn
    have hnq : (1 : ℚ) ≤ (s.length : ℚ) := by exact_mod_cast hn1
    apply interpAt_mono s hs
    · exact mul_nonneg (by linarith) h0
    · exact mul_le_mul_of_nonneg_left hab (by linarith)
    · calc ((s.length : ℚ) - 1) * b
          ≤ ((s.length : ℚ) - 1) * 1 := mul_le_mul_of_nonneg_left h1 (by linarith)
        _ = (s.length : ℚ) - 1 := mul_one _

/-! ### Structure of the monthly aggregation -/

theorem mkSummary_mean (counts : List Nat) (c w : ℚ) :
    (mkSummary counts c w).mean
      = round0 ((counts.map fun n : Nat => (n : ℚ)).sum
          / ((counts.map fun n : Nat => (n : ℚ)).length : ℚ)) := rfl

theorem mkSummary_max (counts : List Nat) (c w : ℚ) :
    (mkSummary counts c w).max = (listMax counts : ℚ) := rfl

theorem mkSummary_min (counts : List Nat) (c w : ℚ) :
    (mkSummary counts c w).min = (listMin counts : ℚ) := rfl

theorem mkSummary_std (counts : List Nat) (c w : ℚ) :
    (mkSummary counts c w).std
      = if counts.length ≤ 1 then none
        else some (sqrtRound0 (sampleVar (counts.map fun n : Nat => (n : ℚ)))) := rfl

theorem mkSummary_utilization (counts : List Nat) (c w : ℚ) :
    (mkSummary counts c w).utilization_rate = (mkSummary counts c w).mean / c := rfl

theorem mkSummary_workload_flag (counts : List Nat) (c w : ℚ) :
    (mkSummary counts c w).workload_flag
      = decide (w < (mkSummary counts c w).mean) := rfl

theorem mkSummary_utilization_flag (counts : List Nat) (c w : ℚ) :
    (mkSummary counts c w).utilization_flag
      = decide (UTILIZATION_THRESHOLD < (mkSummary counts c w).utilization_rate) := rfl

theorem mkSummary_variability (counts : List Nat) (c w : ℚ) :
    (mkSummary counts c w).variability_coefficient
      = (mkSummary counts c w).std.map
          (fun s => roundTo 2 (s / (mkSummary counts c w).mean)) := rfl

theorem map_snd_filter_fst {β : Type} (f : β → Nat) (p : β → Bool)
    (l : List β) :
    ((l.map fun k => (k, f k)).filter fun q => p q.1).map Prod.snd
      = (l.filter p).map f := by
  induction l with
  | nil => rfl
  | cons x xs ih =>
    by_cases hp : p x
    · simp [List.filter_cons, hp, ih]
    · simp [List.filter_cons, hp, ih]

theorem countKey_eq_count {κ : Type} [DecidableEq κ] (ks : List κ) (k : κ) :
    countKey ks k = List.count k ks := by
  unfold countKey
  rw [List.count, List.countP_eq_length_filter]
  congr 1

theorem agencyMonthCounts_eq (t : List Request) (a : String) :
    agencyMonthCounts t a
      = ((monthlyPairs t).dedup.filter fun k => decide (k.1 = a)).map
          fun k => countKey (monthlyPairs t) k := by
  unfold agencyMonthCounts monthly_agency_volume groupCounts
  exact map_snd_filter_fst (fun k => countKey (monthlyPairs t) k)
    (fun k => decide (k.1 = a)) (monthlyPairs t).dedup

theorem agencyMonthCounts_ne_nil {t : List Request} {a : String}
    (h : a ∈ agencies t) : agencyMonthCounts t a ≠ [] := by
  rw [agencyMonthCounts_eq]
  unfold agencies at h
  rw [List.mem_dedup, List.mem_map] at h
  obtain ⟨k, hk, hka⟩ := h
  have hmem : k ∈ (monthlyPairs t).dedup.filter fun p => decide (p.1 = a) :=
    List.mem_filter.mpr ⟨List.mem_dedup.mpr hk, by simp [hka]⟩
  intro hnil
  rw [List.map_eq_nil_iff] at hnil
  rw [hnil] at hmem
  exact List.not_mem_nil k hmem

theorem mem_monthly_volumes {t : List Request} {c w : ℚ} {a : String}
    {s : AgencySummary} (h : (a, s) ∈ monthly_volumes t c w) :
    a ∈ agencies t ∧ s = mkSummary (agencyMonthCounts t a) c w := by
  unfold monthly_volumes monthly_agency_avg at h
  rw [List.mem_map] at h
  obtain ⟨b, hb, heq⟩ := h
  injection heq with h1 h2
  subst h1
  exact ⟨hb, h2.symm⟩

/-- C4: the claim asserts that a single-month agency's summary has a zero
or documented-null stdev rather than a floating-point NaN that propagates
into derived fields.  In the code (`metrics.py` lines 87, 93) the pandas
`std` of a one-row group is NaN (modelled `none`), and that NaN propagates
into the derived `variability_coefficient` column, which is merged into
the export (line 261).  This theorem exhibits the behaviour at a concrete
single-month input: the stdev is not zero but NaN, and the derived field
is NaN as well, refuting the claim as stated. -/
theorem C4_counterexample :
    ((monthly_volumes exSingle 20000 15000).map fun p =>
        (p.1, p.2.std, p.2.variability_coefficient)) = [("A", none, none)] := by
  decide

/-- C4 (amended): an agency with a single observed month still receives a
summary row, but its `std` is NaN (`none`), and the NaN propagates into
`variability_coefficient`; agencies with at least two observed months get
a defined `std` and a defined `variability_coefficient`. -/
theorem C4_single_month_nan :
    ∀ (t : List Request) (c w : ℚ) (a : String) (s : AgencySummary),
      (a, s) ∈ monthly_volumes t c w →
      ((s.std = none ↔ (agencyMonthCounts t a).length = 1) ∧
        (s.variability_coefficient = none ↔ s.std = none)) := by
  intro t c w a s h
  obtain ⟨ha, hs⟩ := mem_monthly_volumes h
  have hne : agencyMonthCounts t a ≠ [] := agencyMonthCounts_ne_nil ha
  have hpos : 1 ≤ (agencyMonthCounts t a).length :=
    Nat.one_le_iff_ne_zero.mpr (by simpa [List.length_eq_zero] using hne)
  subst hs
  constructor
  · rw [mkSummary_std]
    by_cases hle : (agencyMonthCounts t a).length ≤ 1
    · rw [if_pos hle]
      exact iff_of_true rfl (by omega)
    · rw [if_neg hle]
      exact iff_of_false (Option.some_ne_none _) (by omega)
  · rw [mkSummary_variability]
    simp

/-! ### Lemmas for the C1 characterisation -/

/-- Number of rows of agency `a` carrying a non-null `created_date`. -/
def agencyRowCount (t : List Request) (a : String) : Nat :=
  ((monthlyPairs t).filter fun k => decide (k.1 = a)).length

/-- The distinct year-months observed for agency `a`. -/
def agencyMonths (t : List Request) (a : String) : List (Nat × Nat) :=
  (((monthlyPairs t).filter fun k => decide (k.1 = a)).map Prod.snd).dedup

theorem sum_map_natCast (l : List Nat) :
    (l.map fun n : Nat => (n : ℚ)).sum = (l.sum : ℚ) := by
  induction l with
  | nil => simp
  | cons x xs ih =>
    simp only [List.map_cons, List.sum_cons, ih]
    push_cast
    ring

theorem agencyMonthCounts_sum (t : List Request) (a : String) :
    (agencyMonthCounts t a).sum = agencyRowCount t a := by
  rw [agencyMonthCounts_eq]
  unfold agencyRowCount
  have h := List.sum_map_count_dedup_filter_eq_countP
    (fun k : String × (Nat × Nat) => decide (k.1 = a)) (monthlyPairs t)
  rw [List.countP_eq_length_filter] at h
  rw [← h]
  congr 1
  exact List.map_congr_left fun k _ => countKey_eq_count _ _

theorem length_dedup_filter {α : Type} [DecidableEq α] (p : α → Bool)
    (l : List α) :
    ((l.filter p).dedup).length = ((l.dedup).filter p).length := by
  have hperm : List.Perm ((l.filter p).dedup) ((l.dedup).filter p) := by
    rw [List.perm_ext_iff_of_nodup (List.nodup_dedup _)
      ((List.nodup_dedup l).filter p)]
    intro x
    simp only [List.mem_dedup, List.mem_filter]
  exact hperm.length_eq

theorem length_dedup_map_snd_of_fst_eq (a : String)
    (l : List (String × (Nat × Nat))) (h : ∀ x ∈ l, x.1 = a) :
    ((l.map Prod.snd).dedup).length = l.dedup.length := by
  have hinj : Function.Injective (fun m : Nat × Nat => (a, m)) := by
    intro m1 m2 hm
    simpa using hm
  have hmapid : (l.map Prod.snd).map (fun m => (a, m)) = l := by
    rw [List.map_map]
    calc l.map ((fun m : Nat × Nat => (a, m)) ∘ Prod.snd)
        = l.map id := List.map_congr_left (by
          intro x hx
          have hx1 := h x hx
          cases x
          simp_all)
      _ = l := List.map_id l
  have hd := List.dedup_map_of_injective hinj (l.map Prod.snd)
  rw [hmapid] at hd
  rw [hd, List.length_map]

theorem agencyMonthCounts_length (t : List Request) (a : String) :
    (agencyMonthCounts t a).length = (agencyMonths t a).length := by
  rw [agencyMonthCounts_eq, List.length_map]
  unfold agencyMonths
  rw [length_dedup_map_snd_of_fst_eq a _ (by
    intro x hx
    have := (List.mem_filter.mp hx).2
    simpa using this)]
  rw [length_dedup_filter]

theorem le_listMax {l : List Nat} {c : Nat} (h : c ∈ l) : c ≤ listMax l := by
  induction l with
  | nil => cases h
  | cons x xs ih =>
    rcases List.mem_cons.mp h with rfl | hmem
    · exact le_max_left _ _
    · exact le_trans (ih hmem) (le_max_right _ _)

theorem listMax_mem {l : List Nat} (h : l ≠ []) : listMax l ∈ l := by
  induction l with
  | nil => cases h rfl
  | cons x xs ih =>
    by_cases hx : xs = []
    · subst hx
      show max x (listMax []) ∈ [x]
      simp [listMax]
    · have hmem := ih hx
      show max x (listMax xs) ∈ x :: xs
      rcases le_total x (listMax xs) with hle | hle
      · rw [max_eq_right hle]
        exact List.mem_cons_of_mem _ hmem
      · rw [max_eq_left hle]
        exact List.mem_cons_self _ _

theorem listMin_le {l : List Nat} {c : Nat} (h : c ∈ l) : listMin l ≤ c := by
  induction l with
  | nil => cases h
  | cons x xs ih =>
    cases xs with
    | nil =>
      rcases List.mem_cons.mp h with rfl | hmem
      · exact le_refl _
      · cases hmem
    | cons y ys =>
      rcases List.mem_cons.mp h with rfl | hmem
      · exact min_le_left _ _
      · exact le_trans (min_le_right _ _) (ih hmem)

theorem listMin_mem {l : List Nat} (h : l ≠ []) : listMin l ∈ l := by
  induction l with
  | nil => cases h rfl
  | cons x xs ih =>
    cases xs with
    | nil => exact List.mem_singleton.mpr rfl
    | cons y ys =>
      have hmem := ih (by simp)
      show min x (listMin (y :: ys)) ∈ x :: y :: ys
      rcases le_total x (listMin (y :: ys)) with hle | hle
      · rw [min_eq_left hle]
        exact List.mem_cons_self _ _
      · rw [min_eq_right hle]
        exact List.mem_cons_of_mem _ hmem

/-- Witness for `C4_single_month_nan` at the concrete one-month table. -/
theorem C4_single_month_nan_witness :
    ((mkSummary (agencyMonthCounts exSingle "A") 20000 15000).std = none ↔
        (agencyMonthCounts exSingle "A").length = 1) ∧
      ((mkSummary (agencyMonthCounts exSingle "A") 20000 15000).variability_coefficient
          = none ↔
        (mkSummary (agencyMonthCounts exSingle "A") 20000 15000).std = none) :=
  C4_single_month_nan exSingle 20000 15000 "A" _ (by
    have hag : agencies exSingle = ["A"] := by decide
    simp [monthly_volumes, monthly_agency_avg, hag])

/-- C1: the claim asserts `utilization_rate` equals the unrounded mean of
the monthly counts divided by capacity.  The code applies `.round(0)` to
the aggregated mean (`metrics.py` line 87) before deriving the
utilization columns (line 90): for an agency with monthly counts 1 and 2,
the unrounded mean is `3/2`, the stored mean is `round0 (3/2) = 2`, and
the utilization rate is `2 / 20000 = 1/10000`, not `(3/2) / 20000 =
3/40000`.  This refutes the "(unrounded)" part of the claim at a concrete
input. -/
theorem C1_counterexample :
    ((monthly_volumes exTwo 20000 15000).map fun p => (p.1, p.2.utilization_rate))
        = [("A", 1 / 10000)]
      ∧ agencyMonthCounts exTwo "A" = [1, 2]
      ∧ (1 / 10000 : ℚ) ≠ (3 / 2) / 20000 := by
  refine ⟨?_, by decide, by norm_num⟩
  have hag : agencies exTwo = ["A"] := by decide
  have hcounts : agencyMonthCounts exTwo "A" = [1, 2] := by decide
  have hf : Int.floor ((3 : ℚ) / 2) = 1 := by
    rw [Int.floor_eq_iff]
    norm_num
  have hmean : (mkSummary (agencyMonthCounts exTwo "A") 20000 15000).mean = 2 := by
    rw [mkSummary_mean, hcounts]
    simp only [List.map_cons, List.map_nil, List.sum_cons, List.sum_nil,
      List.length_cons, List.length_nil]
    norm_num [round0, roundHalfEven, hf]
  simp only [monthly_volumes, monthly_agency_avg, hag, List.map_cons, List.map_nil]
  rw [mkSummary_utilization, hmean]
  norm_num

/-- C1 (amended): for every agency in `monthly_volumes`, the stored mean
is the ROUNDED (`round0`, half-to-even) arithmetic mean of its monthly
counts (equal to its dated-row count divided by its number of distinct
observed months), `utilization_rate` is that rounded mean divided by
capacity, `overburdened` compares the rounded mean against the workload
threshold, `over_utilized` compares the rate against the utilization
threshold whose value is 0.80, `max`/`min` are the extremes of the
monthly counts, and `std` is defined exactly for agencies with at least
two observed months. -/
theorem C1_monthly_volumes :
    ∀ (t : List Request) (capacity workload : ℚ) (a : String)
      (s : AgencySummary),
      (a, s) ∈ monthly_volumes t capacity workload →
      (s.mean = round0 ((agencyRowCount t a : ℚ) / ((agencyMonths t a).length : ℚ))
        ∧ s.utilization_rate = s.mean / capacity
        ∧ s.workload_flag = decide (workload < s.mean)
        ∧ s.utilization_flag = decide (UTILIZATION_THRESHOLD < s.utilization_rate)
        ∧ UTILIZATION_THRESHOLD = 80 / 100
        ∧ (∃ c ∈ agencyMonthCounts t a, s.max = (c : ℚ))
        ∧ (∀ c ∈ agencyMonthCounts t a, (c : ℚ) ≤ s.max)
        ∧ (∃ c ∈ agencyMonthCounts t a, s.min = (c : ℚ))
        ∧ (∀ c ∈ agencyMonthCounts t a, s.min ≤ (c : ℚ))
        ∧ (s.std.isSome ↔ 2 ≤ (agencyMonths t a).length)) := by
  intro t capacity workload a s h
  obtain ⟨ha, hs⟩ := mem_monthly_volumes h
  have hne := agencyMonthCounts_ne_nil ha
  have hlen := agencyMonthCounts_length t a
  subst hs
  refine ⟨?_, mkSummary_utilization _ _ _, mkSummary_workload_flag _ _ _,
    mkSummary_utilization_flag _ _ _, rfl, ?_, ?_, ?_, ?_, ?_⟩
  · rw [mkSummary_mean, List.length_map, sum_map_natCast,
      agencyMonthCounts_sum, hlen]
  · exact ⟨listMax (agencyMonthCounts t a), listMax_mem hne, mkSummary_max _ _ _⟩
  · intro c hc
    rw [mkSummary_max]
    exact_mod_cast le_listMax hc
  · exact ⟨listMin (agencyMonthCounts t a), listMin_mem hne, mkSummary_min _ _ _⟩
  · intro c hc
    rw [mkSummary_min]
    exact_mod_cast listMin_le hc
  · rw [mkSummary_std]
    by_cases hle : (agencyMonthCounts t a).length ≤ 1
    · rw [if_pos hle]
      exact iff_of_false (by simp) (by omega)
    · rw [if_neg hle]
      exact iff_of_true (by simp) (by omega)

/-- Witness for `C1_monthly_volumes` at the two-month table. -/
theorem C1_monthly_volumes_witness :
    ((mkSummary (agencyMonthCounts exTwo "A") 20000 15000).mean
        = round0 ((agencyRowCount exTwo "A" : ℚ)
            / ((agencyMonths exTwo "A").length : ℚ))
      ∧ (mkSummary (agencyMonthCounts exTwo "A") 20000 15000).utilization_rate
          = (mkSummary (agencyMonthCounts exTwo "A") 20000 15000).mean / 20000
      ∧ (mkSummary (agencyMonthCounts exTwo "A") 20000 15000).workload_flag
          = decide ((15000 : ℚ)
              < (mkSummary (agencyMonthCounts exTwo "A") 20000 15000).mean)
      ∧ (mkSummary (agencyMonthCounts exTwo "A") 20000 15000).utilization_flag
          = decide (UTILIZATION_THRESHOLD
              < (mkSummary (agencyMonthCounts exTwo "A") 20000 15000).utilization_rate)
      ∧ UTILIZATION_THRESHOLD = 80 / 100
      ∧ (∃ c ∈ agencyMonthCounts exTwo "A",
          (mkSummary (agencyMonthCounts exTwo "A") 20000 15000).max = (c : ℚ))
      ∧ (∀ c ∈ agencyMonthCounts exTwo "A",
          (c : ℚ) ≤ (mkSummary (agencyMonthCounts exTwo "A") 20000 15000).max)
      ∧ (∃ c ∈ agencyMonthCounts exTwo "A",
          (mkSummary (agencyMonthCounts exTwo "A") 20000 15000).min = (c : ℚ))
      ∧ (∀ c ∈ agencyMonthCounts exTwo "A",
          (mkSummary (agencyMonthCounts exTwo "A") 20000 15000).min ≤ (c : ℚ))
      ∧ ((mkSummary (agencyMonthCounts exTwo "A") 20000 15000).std.isSome ↔
          2 ≤ (agencyMonths exTwo "A").length)) :=
  C1_monthly_volumes exTwo 20000 15000 "A" _ (by
    have hag : agencies exTwo = ["A"] := by decide
    simp [monthly_volumes, monthly_agency_avg, hag])

/-! ### C8 and C9 -/

theorem monthly_volumes_keys (t : List Request) (capacity workload : ℚ) :
    (monthly_volumes t capacity workload).map Prod.fst = agencies t := by
  unfold monthly_volumes monthly_agency_avg
  rw [List.map_map]
  calc (agencies t).map (Prod.fst ∘ fun a =>
          (a, mkSummary (agencyMonthCounts t a) capacity workload))
      = (agencies t).map id := List.map_congr_left fun a _ => rfl
    _ = agencies t := List.map_id _

/-- C8: the claim asserts that a configuration with capacity ≤ 0 makes
the classifier fail fast with a configuration error before any
aggregation runs.  The code (`metrics.py` lines 61-71) performs no
validation at all, and the aggregation of lines 86-93 runs for any
capacity value: with capacity `-20000` it still produces the complete
summary with a negative utilization rate instead of raising an error. -/
theorem C8_counterexample :
    ((monthly_volumes exTwo (-20000) 15000).map fun p =>
        (p.1, p.2.utilization_rate)) = [("A", -(1 / 10000))]
      ∧ (monthly_volumes exTwo (-20000) 15000).length = 1 := by
  constructor
  · have hag : agencies exTwo = ["A"] := by decide
    have hcounts : agencyMonthCounts exTwo "A" = [1, 2] := by decide
    have hf : Int.floor ((3 : ℚ) / 2) = 1 := by
      rw [Int.floor_eq_iff]
      norm_num
    have hmean : (mkSummary (agencyMonthCounts exTwo "A") (-20000) 15000).mean
        = 2 := by
      rw [mkSummary_mean, hcounts]
      simp only [List.map_cons, List.map_nil, List.sum_cons, List.sum_nil,
        List.length_cons, List.length_nil]
      norm_num [round0, roundHalfEven, hf]
    simp only [monthly_volumes, monthly_agency_avg, hag, List.map_cons,
      List.map_nil]
    rw [mkSummary_utilization, hmean]
    norm_num
  · have hag : agencies exTwo = ["A"] := by decide
    simp [monthly_volumes, monthly_agency_avg, hag]

/-- C8 (amended): the code has no fail-fast configuration check: for
every capacity and workload threshold, including non-positive ones, the
aggregation runs and yields one summary per observed agency; empty input
produces an empty mapping, not an error; and the capacities and
thresholds the script can actually select (lines 61-69) are always
positive, so an invalid configuration is unreachable in the script. -/
theorem C8_no_validation :
    (∀ capacity workload : ℚ, monthly_volumes [] capacity workload = [])
      ∧ (∀ (t : List Request) (capacity workload : ℚ),
          (monthly_volumes t capacity workload).map Prod.fst = agencies t)
      ∧ (∀ um : Nat,
          0 < BASELINE_MONTHLY_CAPACITY um ∧ 0 < WORKLOAD_THRESHOLD um) := by
  refine ⟨fun c w => rfl, monthly_volumes_keys, ?_⟩
  intro um
  constructor
  · unfold BASELINE_MONTHLY_CAPACITY
    split_ifs <;> norm_num
  · unfold WORKLOAD_THRESHOLD
    split_ifs <;> norm_num

/-- C9: the claim asserts each derived mapping has exactly the observed
values of its grouping key as keys.  The monthly aggregation groups by
(agency, year-month) (line 86), and pandas drops any row in which EITHER
groupby key is null: a row whose agency is `"X"` but whose `created_date`
is null yields no monthly record at all, so the observed agency `"X"` has
no derived summary. -/
theorem C9_counterexample :
    monthly_volumes exNullDate 20000 15000 = []
      ∧ exNullDate.filterMap (fun r => r.agency) = ["X"] := by
  constructor
  · decide
  · decide

/-- C9 (amended): the key set of each of the three aggregations is the
set of distinct observed NON-NULL grouping keys among the rows that also
carry every other key of that grouping: per-agency keys are the distinct
agencies of rows with both agency and `created_date` non-null, daily keys
are the distinct dates of rows with `created_date` non-null, borough keys
are the distinct non-null boroughs; all three key lists are free of
duplicates. -/
theorem C9_key_sets :
    (∀ (t : List Request) (capacity workload : ℚ),
        (monthly_volumes t capacity workload).map Prod.fst
            = (t.filterMap fun r =>
                match r.agency, r.created with
                | some a, some _ => some a
                | _, _ => none).dedup
          ∧ ((monthly_volumes t capacity workload).map Prod.fst).Nodup)
      ∧ (∀ t : List Request,
          (∀ d, d ∈ (daily_volume t).map Prod.fst ↔ d ∈ dates t)
            ∧ ((daily_volume t).map Prod.fst).Nodup)
      ∧ (∀ t : List Request,
          (∀ b, b ∈ (borough_stats t).map Prod.fst ↔ b ∈ boroughs t)
            ∧ ((borough_stats t).map Prod.fst).Nodup) := by
  refine ⟨?_, ?_, ?_⟩
  · intro t capacity workload
    have hfun : (fun r : Request =>
        (match r.agency, r.created with
          | some a, some c => some (a, c.ym)
          | _, _ => none : Option (String × (Nat × Nat))).map Prod.fst)
        = (fun r : Request =>
            match r.agency, r.created with
            | some a, some _ => some a
            | _, _ => none) := by
      funext r
      cases hr1 : r.agency <;> cases hr2 : r.created <;> simp
    constructor
    · rw [monthly_volumes_keys]
      unfold agencies monthlyPairs
      rw [List.map_filterMap, hfun]
    · rw [monthly_volumes_keys]
      exact List.nodup_dedup _
  · intro t
    have hkeys : (daily_volume t).map Prod.fst
        = List.insertionSort tsLE (dates t).dedup := by
      unfold daily_volume
      rw [List.map_map]
      calc (List.insertionSort tsLE (dates t).dedup).map
              (Prod.fst ∘ fun d => (d, countKey (dates t) d))
          = (List.insertionSort tsLE (dates t).dedup).map id :=
            List.map_congr_left fun d _ => rfl
        _ = _ := List.map_id _
    constructor
    · intro d
      rw [hkeys, (List.perm_insertionSort tsLE _).mem_iff, List.mem_dedup]
    · rw [hkeys]
      exact ((List.perm_insertionSort tsLE _).nodup_iff).mpr (List.nodup_dedup _)
  · intro t
    have hperm : List.Perm ((borough_stats t).map Prod.fst)
        (((boroughs t).dedup.map fun b => (b, boroughSummaryOf t b)).map
          Prod.fst) :=
      (List.perm_insertionSort _ _).map Prod.fst
    have hraw : ((boroughs t).dedup.map fun b =>
        (b, boroughSummaryOf t b)).map Prod.fst = (boroughs t).dedup := by
      rw [List.map_map]
      calc (boroughs t).dedup.map (Prod.fst ∘ fun b => (b, boroughSummaryOf t b))
          = (boroughs t).dedup.map id := List.map_congr_left fun b _ => rfl
        _ = _ := List.map_id _
    constructor
    · intro b
      rw [hperm.mem_iff, hraw, List.mem_dedup]
    · rw [hperm.nodup_iff, hraw]
      exact List.nodup_dedup _

/-! ### C3: rolling-average edge behaviour -/

theorem dailySeries_getD (q : ℚ) (t : List Request) {i : Nat}
    (h : i < (daily_volume t).length) :
    (dailySeries q t).getD i default =
      { date := ((daily_volume t).getD i default).1
        count := ((daily_volume t).getD i default).2
        rolling_avg_7 := (rollingCenteredMean 7 (dailyCounts t)).getD i none
        rolling_avg_30 := (rollingCenteredMean 30 (dailyCounts t)).getD i none
        peak_flag := decide (quantileLinear (dailyCounts t) q
          < (((daily_volume t).getD i default).2 : ℚ)) } := by
  rw [dailySeries_unfolded, getD_map_range _ h]

theorem rollingCenteredMean_getD (w : Nat) (xs : List ℚ) {i : Nat}
    (h : i < xs.length) :
    (rollingCenteredMean w xs).getD i none
      = if (w - 1 - (w - 1) / 2) ≤ i ∧ i + (w - 1) / 2 < xs.length then
          some (((xs.drop (i - (w - 1 - (w - 1) / 2))).take w).sum / (w : ℚ))
        else none := by
  unfold rollingCenteredMean
  rw [getD_map_range _ h]

/-- C3 (amended): for every daily series, the centered 7-day rolling
average is null exactly on the first 3 and last 3 positions, but the
centered 30-day rolling average is null exactly on the first 15 and the
LAST 14 positions: pandas centres an even window with one more row before
the label than after it, so the edge region is asymmetric, not "within
window/2 of either boundary" on both sides. -/
theorem C3_rolling_edges :
    ∀ (q : ℚ) (t : List Request) (i : Nat),
      i < (dailySeries q t).length →
      ((((dailySeries q t).getD i default).rolling_avg_7 = none ↔
          (i < 3 ∨ (dailySeries q t).length < i + 4))
        ∧ (((dailySeries q t).getD i default).rolling_avg_30 = none ↔
          (i < 15 ∨ (dailySeries q t).length < i + 15))) := by
  intro q t i hi
  rw [length_dailySeries] at hi
  rw [dailySeries_getD q t hi, length_dailySeries]
  have hcountlen : i < (dailyCounts t).length := by
    rw [length_dailyCounts]
    exact hi
  constructor
  · show (rollingCenteredMean 7 (dailyCounts t)).getD i none = none ↔ _
    rw [rollingCenteredMean_getD 7 _ hcountlen, length_dailyCounts] at *
    split_ifs with hc
    · exact iff_of_false (by simp) (by omega)
    · exact iff_of_true (by simp) (by omega)
  · show (rollingCenteredMean 30 (dailyCounts t)).getD i none = none ↔ _
    rw [rollingCenteredMean_getD 30 _ hcountlen, length_dailyCounts] at *
    split_ifs with hc
    · exact iff_of_false (by simp) (by omega)
    · exact iff_of_true (by simp) (by omega)

/-- Witness for `C3_rolling_edges` at the 30-day table, first position. -/
theorem C3_rolling_edges_witness :
    (((dailySeries (98 / 100) ex30).getD 0 default).rolling_avg_7 = none ↔
        (0 < 3 ∨ (dailySeries (98 / 100) ex30).length < 0 + 4))
      ∧ (((dailySeries (98 / 100) ex30).getD 0 default).rolling_avg_30 = none ↔
        (0 < 15 ∨ (dailySeries (98 / 100) ex30).length < 0 + 15)) :=
  C3_rolling_edges (98 / 100) ex30 0 (by
    rw [length_dailySeries]
    decide)

/-- C3: the claim asserts the centered 30-day rolling average is null on
edge dates within half a window (15 days) of EITHER boundary.  On a
series of exactly 30 days, position 15 is 14 < 15 positions from the end
boundary, yet the code (pandas `rolling(30, center=True)` with its
back-heavy window `[i-15, i+14]`) assigns it the defined value 1 (the
mean of the 30 all-one daily counts), refuting the claim at a concrete
input. -/
theorem C3_counterexample :
    (dailySeries (98 / 100) ex30).length = 30
      ∧ ((dailySeries (98 / 100) ex30).getD 15 default).rolling_avg_30 = some 1
      ∧ (30 : Nat) - 1 - 15 < 15 := by
  have hdvlen : (daily_volume ex30).length = 30 := by decide
  have hlen : (dailySeries (98 / 100) ex30).length = 30 := by
    rw [length_dailySeries, hdvlen]
  refine ⟨hlen, ?_, by norm_num⟩
  have h15 : (15 : Nat) < (daily_volume ex30).length := by
    rw [hdvlen]
    norm_num
  have hcountlen : (15 : Nat) < (dailyCounts ex30).length := by
    rw [length_dailyCounts]
    exact h15
  have hdc : dailyCounts ex30 = List.replicate 30 ((1 : Nat) : ℚ) := by decide
  rw [dailySeries_getD _ _ h15]
  show (rollingCenteredMean 30 (dailyCounts ex30)).getD 15 none = some 1
  rw [rollingCenteredMean_getD 30 _ hcountlen]
  rw [if_pos (by
    constructor
    · norm_num
    · rw [length_dailyCounts, hdvlen]
      norm_num)]
  rw [hdc]
  norm_num [List.take_replicate, List.sum_replicate, nsmul_eq_mul]

/-! ### C7: daily series bucketing and ordering -/

theorem daily_volume_keys (t : List Request) :
    (daily_volume t).map Prod.fst = List.insertionSort tsLE (dates t).dedup := by
  unfold daily_volume
  rw [List.map_map]
  calc (List.insertionSort tsLE (dates t).dedup).map
          (Prod.fst ∘ fun d => (d, countKey (dates t) d))
      = (List.insertionSort tsLE (dates t).dedup).map id :=
        List.map_congr_left fun d _ => rfl
    _ = _ := List.map_id _

theorem daily_volume_keys_nodup (t : List Request) :
    ((daily_volume t).map Prod.fst).Nodup := by
  rw [daily_volume_keys]
  exact ((List.perm_insertionSort tsLE _).nodup_iff).mpr (List.nodup_dedup _)

/-- C7: the claim asserts requests with null `created_at` are "counted
separately as a data-quality signal rather than silently dropped".  In
`metrics.py` the daily aggregation (lines 117-119) is the only derived
output of the daily pass, and a row with null `created_date` leaves no
trace in it: for a two-row table with one null-dated row, the series
accounts for exactly one request and contains nothing else - the null row
is silently dropped, and no separate count of null dates is produced
anywhere in the pipeline. -/
theorem C7_counterexample :
    exNullMix.length = 2
      ∧ daily_volume exNullMix = [(⟨2024, 1, 1⟩, 1)]
      ∧ ((daily_volume exNullMix).map Prod.snd).sum = 1 := by
  refine ⟨by decide, by decide, by decide⟩

/-- C7 (amended): `daily_volume` buckets requests by the calendar date of
`created_at`, returns the sequence sorted ascending by date without
duplicate dates, each bucket's count is the number of rows carrying that
date, and the counts sum to the number of rows with a NON-NULL
`created_at` - rows with null `created_at` are excluded and silently
dropped (no separate count is derivable from the output). -/
theorem C7_daily_series :
    ∀ t : List Request,
      (((daily_volume t).map Prod.fst).Sorted tsLE
        ∧ ((daily_volume t).map Prod.fst).Nodup
        ∧ (∀ p ∈ daily_volume t, p.2 = countKey (dates t) p.1 ∧ p.1 ∈ dates t)
        ∧ ((daily_volume t).map Prod.snd).sum = (dates t).length) := by
  intro t
  refine ⟨?_, daily_volume_keys_nodup t, ?_, ?_⟩
  · rw [daily_volume_keys]
    exact List.sorted_insertionSort tsLE _
  · intro p hp
    unfold daily_volume at hp
    rw [List.mem_map] at hp
    obtain ⟨d, hd, hdp⟩ := hp
    subst hdp
    refine ⟨rfl, ?_⟩
    have := (List.perm_insertionSort tsLE (dates t).dedup).mem_iff.mp hd
    exact List.mem_dedup.mp this
  · have hmm : (daily_volume t).map Prod.snd
        = (List.insertionSort tsLE (dates t).dedup).map
            fun d => countKey (dates t) d := by
      unfold daily_volume
      rw [List.map_map]
      rfl
    rw [hmm]
    have hperm : List.Perm
        ((List.insertionSort tsLE (dates t).dedup).map
          fun d => countKey (dates t) d)
        ((dates t).dedup.map fun d => countKey (dates t) d) :=
      (List.perm_insertionSort tsLE _).map _
    rw [hperm.sum_eq]
    calc ((dates t).dedup.map fun d => countKey (dates t) d).sum
        = ((dates t).dedup.map fun d => List.count d (dates t)).sum := by
          exact congrArg List.sum
            (List.map_congr_left fun d _ => countKey_eq_count _ _)
      _ = (dates t).length := List.sum_map_count_dedup_eq_length _

/-- Witness for `C7_daily_series` at the ten-day scenario table. -/
theorem C7_daily_series_witness :
    ((daily_volume exTenDays).map Prod.fst).Sorted tsLE
      ∧ ((50 : Nat) = countKey (dates exTenDays) ⟨2024, 1, 5⟩
          ∧ (⟨2024, 1, 5⟩ : Timestamp) ∈ dates exTenDays) :=
  ⟨(C7_daily_series exTenDays).1,
    (C7_daily_series exTenDays).2.2.1 (⟨2024, 1, 5⟩, 50) (by decide)⟩

/-! ### C2: peak flag and the ten-day scenario -/

theorem quantileLinear_eval (l : List ℚ) (q : ℚ) (s : List ℚ)
    (hs : List.insertionSort (· ≤ ·) l = s) (hne : s.length ≠ 0) :
    quantileLinear l q = interpAt s (((s.length : ℚ) - 1) * q) := by
  unfold quantileLinear
  rw [hs, if_neg hne]

/-- C2: the peak flag of each daily entry is true iff its count strictly
exceeds the linear-interpolation quantile of the full daily-count
distribution at the configured percentile (`metrics.py` line 124
instantiates it with `0.98`; spec §4.3 exposes it as `peak_percentile`);
in the concrete ten-day scenario with `peak_percentile = 90` the
threshold is `5.9` and day 5 is flagged as the sole peak day. -/
theorem C2_peak_flag :
    (∀ (q : ℚ) (t : List Request) (s : DailyStat), s ∈ dailySeries q t →
        (s.peak_flag = true ↔
          quantileLinear (dailyCounts t) q < (s.count : ℚ)))
      ∧ quantileLinear (dailyCounts exTenDays) (90 / 100) = 59 / 10
      ∧ ((dailySeries (90 / 100) exTenDays).map fun s => (s.date.day, s.peak_flag))
          = [(1, false), (2, false), (3, false), (4, false), (5, true),
             (6, false), (7, false), (8, false), (9, false), (10, false)] := by
  have hthr : quantileLinear (dailyCounts exTenDays) (90 / 100) = 59 / 10 := by
    have hs : List.insertionSort (· ≤ ·) (dailyCounts exTenDays)
        = ([1, 1, 1, 1, 1, 1, 1, 1, 1, 50].map fun n : Nat => (n : ℚ)) := by
      decide
    rw [quantileLinear_eval _ _ _ hs (by decide)]
    have hlen : ((([1, 1, 1, 1, 1, 1, 1, 1, 1, 50].map
        fun n : Nat => (n : ℚ)).length : ℕ) : ℚ) = 10 := by
      decide
    rw [hlen]
    have hpos : ((10 : ℚ) - 1) * (90 / 100) = 81 / 10 := by norm_num
    rw [hpos, interpAt_def]
    have hfl : Int.floor ((81 : ℚ) / 10) = 8 := by
      rw [Int.floor_eq_iff]
      norm_num
    rw [hfl]
    have h8 : ([1, 1, 1, 1, 1, 1, 1, 1, 1, 50].map
        fun n : Nat => (n : ℚ)).getD (Int.toNat 8) 0 = 1 := by
      decide
    have h9 : ([1, 1, 1, 1, 1, 1, 1, 1, 1, 50].map
        fun n : Nat => (n : ℚ)).getD (Int.toNat 8 + 1)
        (([1, 1, 1, 1, 1, 1, 1, 1, 1, 50].map
          fun n : Nat => (n : ℚ)).getD (Int.toNat 8) 0) = 50 := by
      decide
    rw [h9, h8]
    have htn : ((Int.toNat 8 : Nat) : ℚ) = 8 := by decide
    rw [htn]
    norm_num
  refine ⟨?_, hthr, ?_⟩
  · intro q t s hs
    rw [dailySeries_unfolded, List.mem_map] at hs
    obtain ⟨i, hi, hsi⟩ := hs
    subst hsi
    exact decide_eq_true_iff
  · have hthr2 : quantileLinear (dailyCounts exTenDays) (90 / 100)
        = mkRat 59 10 := by
      rw [hthr, Rat.mkRat_eq_divInt, Rat.divInt_eq_div]
      norm_num
    rw [dailySeries_unfolded]
    simp only [hthr2]
    decide

/-- Witness for `C2_peak_flag` at the day-5 entry of the scenario. -/
theorem C2_peak_flag_witness :
    ((dailySeries (90 / 100) exTenDays).getD 4 default).peak_flag = true ↔
      quantileLinear (dailyCounts exTenDays) (90 / 100)
        < (((dailySeries (90 / 100) exTenDays).getD 4 default).count : ℚ) :=
  C2_peak_flag.1 (90 / 100) exTenDays _ (by
    rw [List.getD_eq_getElem _ _ (by
      rw [length_dailySeries]
      decide)]
    exact List.getElem_mem _)

/-! ### C6: peak set antitone in the percentile -/

/-- C6: for a fixed input table, raising the peak percentile never adds a
peak day: every date flagged at the higher percentile is flagged at the
lower one, and the number of flagged days does not increase.  Follows
from monotonicity of the linear-interpolation quantile in `q`. -/
theorem C6_peak_antitone :
    ∀ (t : List Request) (qlo qhi : ℚ), 0 ≤ qlo → qlo ≤ qhi → qhi ≤ 1 →
      ((∀ d, d ∈ (peakRows qhi t).map (·.date) →
          d ∈ (peakRows qlo t).map (·.date))
        ∧ (peakRows qhi t).length ≤ (peakRows qlo t).length) := by
  intro t qlo qhi h0 hlh h1
  have hq := quantileLinear_mono (dailyCounts t) h0 hlh h1
  constructor
  · intro d hd
    rw [List.mem_map] at hd
    obtain ⟨s, hs, hds⟩ := hd
    unfold peakRows at hs
    rw [List.mem_filter] at hs
    obtain ⟨hmem, hflag⟩ := hs
    rw [dailySeries_unfolded, List.mem_map] at hmem
    obtain ⟨i, hi, hsi⟩ := hmem
    rw [List.mem_range] at hi
    subst hsi
    have hcnt : quantileLinear (dailyCounts t) qhi
        < (((daily_volume t).getD i default).2 : ℚ) := of_decide_eq_true hflag
    rw [List.mem_map]
    refine ⟨{ date := ((daily_volume t).getD i default).1
              count := ((daily_volume t).getD i default).2
              rolling_avg_7 := (rollingCenteredMean 7 (dailyCounts t)).getD i none
              rolling_avg_30 := (rollingCenteredMean 30 (dailyCounts t)).getD i none
              peak_flag := decide (quantileLinear (dailyCounts t) qlo
                < (((daily_volume t).getD i default).2 : ℚ)) }, ?_, hds⟩
    unfold peakRows
    rw [List.mem_filter]
    constructor
    · rw [dailySeries_unfolded, List.mem_map]
      exact ⟨i, List.mem_range.mpr hi, rfl⟩
    · exact decide_eq_true (lt_of_le_of_lt hq hcnt)
  · unfold peakRows
    rw [dailySeries_unfolded, dailySeries_unfolded, List.filter_map,
      List.filter_map, List.length_map, List.length_map]
    apply length_filter_mono
    intro i hi hflag
    have hcnt : quantileLinear (dailyCounts t) qhi
        < (((daily_volume t).getD i default).2 : ℚ) := of_decide_eq_true hflag
    exact decide_eq_true (lt_of_le_of_lt hq hcnt)

/-- Witness for `C6_peak_antitone`: raising the percentile from 90 to 98
on the ten-day scenario. -/
theorem C6_peak_antitone_witness :
    (∀ d, d ∈ (peakRows (98 / 100) exTenDays).map (·.date) →
        d ∈ (peakRows (90 / 100) exTenDays).map (·.date))
      ∧ (peakRows (98 / 100) exTenDays).length
          ≤ (peakRows (90 / 100) exTenDays).length :=
  C6_peak_antitone exTenDays (90 / 100) (98 / 100)
    (by norm_num) (by norm_num) (by norm_num)

/-! ### C10: the exported is_peak_day flag keeps only the top 10 -/

theorem dailySeries_map_date (q : ℚ) (t : List Request) :
    (dailySeries q t).map (·.date) = (daily_volume t).map Prod.fst := by
  rw [dailySeries_unfolded, List.map_map]
  apply List.ext_getElem
  · simp
  · intro i h1 h2
    simp only [List.getElem_map, List.getElem_range, Function.comp_apply]
    rw [List.getD_eq_getElem _ _ (by simpa using h2)]

theorem mem_daily_volume_keys {t : List Request} {d : Timestamp}
    (h : d ∈ (daily_volume t).map Prod.fst) : d ∈ dates t := by
  rw [daily_volume_keys, (List.perm_insertionSort tsLE _).mem_iff,
    List.mem_dedup] at h
  exact h

theorem peak_days_subset (q : ℚ) (t : List Request) :
    ∀ s ∈ peak_days q t, s ∈ peakRows q t := by
  intro s hs
  unfold peak_days at hs
  have hs2 := List.take_subset _ _ hs
  exact (List.perm_insertionSort _ _).mem_iff.mp hs2

theorem peakRows_dates_nodup (q : ℚ) (t : List Request) :
    ((peakRows q t).map (·.date)).Nodup := by
  have hsub : List.Sublist ((peakRows q t).map (·.date))
      ((dailySeries q t).map (·.date)) := (List.filter_sublist _).map _
  rw [dailySeries_map_date] at hsub
  exact (daily_volume_keys_nodup t).sublist hsub

theorem peakDates_length_le (q : ℚ) (t : List Request) :
    (peakDates q t).length ≤ 10 := by
  unfold peakDates peak_days
  rw [List.length_map, List.length_take]
  exact min_le_left _ _

/-- C10: the exported `is_peak_day` flag (line 266) is set only for dates
of `peak_days` (line 127), which selects the 10 HIGHEST-count days among
the peak-flagged days: every selected day is flagged, exactly
`min 10 #flagged` days are selected, every selected day's count is at
least the count of every flagged day left out of the selection, and
whenever more than 10 days are flagged, some flagged day's date is
outside the selection and every row of that day exports
`is_peak_day = false`.  Proved for every percentile `q`; the script
instantiates `q = 98/100`. -/
theorem C10_export_top10 :
    ∀ (q : ℚ) (t : List Request),
      ((∀ r ∈ t, is_peak_day q t r = true →
          ∃ s ∈ peak_days q t, r.created = some s.date)
        ∧ (∀ s ∈ peak_days q t, s ∈ peakRows q t)
        ∧ (peakDates q t).length = min 10 (peakRows q t).length
        ∧ (∀ s ∈ peak_days q t, ∀ s2 ∈ peakRows q t,
            s2.date ∉ peakDates q t → s2.count ≤ s.count)
        ∧ (10 < (peakRows q t).length →
            ∃ s ∈ peakRows q t, s.date ∉ peakDates q t
              ∧ ∃ r ∈ t, r.created = some s.date
                ∧ is_peak_day q t r = false)) := by
  intro q t
  refine ⟨?_, peak_days_subset q t, ?_, ?_, ?_⟩
  · intro r hr hpk
    unfold is_peak_day at hpk
    cases hc : r.created with
    | none =>
      rw [hc] at hpk
      exact absurd hpk (by simp)
    | some c =>
      rw [hc] at hpk
      have hcmem : c ∈ peakDates q t := of_decide_eq_true hpk
      unfold peakDates at hcmem
      rw [List.mem_map] at hcmem
      obtain ⟨s, hs, hsc⟩ := hcmem
      exact ⟨s, hs, by rw [hsc]⟩
  · unfold peakDates peak_days
    rw [List.length_map, List.length_take,
      (List.perm_insertionSort byCountDesc (peakRows q t)).length_eq]
  · intro s hs s2 hs2 hnot
    have hsorted : List.Sorted byCountDesc
        (List.insertionSort byCountDesc (peakRows q t)) :=
      List.sorted_insertionSort byCountDesc _
    have hmem2 : s2 ∈ List.insertionSort byCountDesc (peakRows q t) :=
      (List.perm_insertionSort _ _).mem_iff.mpr hs2
    have hsplit : s2 ∈ (List.insertionSort byCountDesc (peakRows q t)).take 10
        ∨ s2 ∈ (List.insertionSort byCountDesc (peakRows q t)).drop 10 := by
      rw [← List.mem_append, List.take_append_drop]
      exact hmem2
    rcases hsplit with h | h
    · have hd : s2.date ∈ peakDates q t := List.mem_map_of_mem _ h
      exact absurd hd hnot
    · exact hsorted.rel_of_mem_take_of_mem_drop hs h
  · intro hlen
    have hex : ∃ s ∈ peakRows q t, s.date ∉ peakDates q t := by
      by_contra hcon
      push_neg at hcon
      have hsubset : ((peakRows q t).map (·.date)) ⊆ peakDates q t := by
        intro d hd
        rw [List.mem_map] at hd
        obtain ⟨s, hs, hds⟩ := hd
        subst hds
        exact hcon s hs
      have hnd := peakRows_dates_nodup q t
      have hcard : ((peakRows q t).map (·.date)).length
          ≤ (peakDates q t).length := by
        calc ((peakRows q t).map (·.date)).length
            = ((peakRows q t).map (·.date)).toFinset.card :=
              (List.toFinset_card_of_nodup hnd).symm
          _ ≤ (peakDates q t).toFinset.card := Finset.card_le_card (by
              intro x hx
              rw [List.mem_toFinset] at hx
              rw [List.mem_toFinset]
              exact hsubset hx)
          _ = (peakDates q t).dedup.length := List.card_toFinset _
          _ ≤ (peakDates q t).length := (List.dedup_sublist _).length_le
      rw [List.length_map] at hcard
      have hpd := peakDates_length_le q t
      omega
    obtain ⟨s, hs, hnot⟩ := hex
    have hdmem : s.date ∈ dates t := by
      have hmem : s.date ∈ (dailySeries q t).map (·.date) := by
        unfold peakRows at hs
        exact List.mem_map_of_mem _ (List.mem_of_mem_filter hs)
      rw [dailySeries_map_date] at hmem
      exact mem_daily_volume_keys hmem
    unfold dates at hdmem
    obtain ⟨r, hr, hrc⟩ := List.mem_filterMap.mp hdmem
    refine ⟨s, hs, hnot, r, hr, hrc, ?_⟩
    unfold is_peak_day
    rw [hrc]
    exact decide_eq_false hnot

/-- Witness for `C10_export_top10`: twenty-one days where eleven exceed
the 40th-percentile threshold, so exactly ten days are selected and one
flagged day falls outside the exported top-10 set. -/
theorem C10_export_top10_witness :
    (peakDates (2 / 5) exPeak).length = min 10 (peakRows (2 / 5) exPeak).length
      ∧ (∃ s ∈ peakRows (2 / 5) exPeak, s.date ∉ peakDates (2 / 5) exPeak
          ∧ ∃ r ∈ exPeak, r.created = some s.date
            ∧ is_peak_day (2 / 5) exPeak r = false) :=
  ⟨(C10_export_top10 (2 / 5) exPeak).2.2.1,
    (C10_export_top10 (2 / 5) exPeak).2.2.2.2 (by
    have hs : List.insertionSort (· ≤ ·) (dailyCounts exPeak)
        = ([1, 1, 1, 1, 1, 1, 1, 1, 1, 1, 5, 5, 5, 5, 5, 5, 5, 5, 5, 5, 5].map
            fun n : Nat => (n : ℚ)) := by
      decide
    have hthr : quantileLinear (dailyCounts exPeak) (2 / 5) = 1 := by
      rw [quantileLinear_eval _ _ _ hs (by decide)]
      have hlen : ((([1, 1, 1, 1, 1, 1, 1, 1, 1, 1, 5, 5, 5, 5, 5, 5, 5, 5, 5,
          5, 5].map fun n : Nat => (n : ℚ)).length : ℕ) : ℚ) = 21 := by
        decide
      rw [hlen]
      have hpos : ((21 : ℚ) - 1) * (2 / 5) = 8 := by norm_num
      rw [hpos, interpAt_def]
      have hfl : Int.floor ((8 : ℚ)) = 8 := by
        rw [Int.floor_eq_iff]
        norm_num
      rw [hfl]
      have h8 : ([1, 1, 1, 1, 1, 1, 1, 1, 1, 1, 5, 5, 5, 5, 5, 5, 5, 5, 5, 5,
          5].map fun n : Nat => (n : ℚ)).getD (Int.toNat 8) 0 = 1 := by
        decide
      have h9 : ([1, 1, 1, 1, 1, 1, 1, 1, 1, 1, 5, 5, 5, 5, 5, 5, 5, 5, 5, 5,
          5].map fun n : Nat => (n : ℚ)).getD (Int.toNat 8 + 1)
          (([1, 1, 1, 1, 1, 1, 1, 1, 1, 1, 5, 5, 5, 5, 5, 5, 5, 5, 5, 5,
            5].map fun n : Nat => (n : ℚ)).getD (Int.toNat 8) 0) = 1 := by
        decide
      rw [h9, h8]
      norm_num
    unfold peakRows
    rw [dailySeries_unfolded]
    simp only [hthr]
    decide)⟩

/-! ### C5: borough closure rates and shares -/

theorem boroughSummaryOf_total (t : List Request) (b : String) :
    (boroughSummaryOf t b).total_requests = (boroughRows t b).length := rfl

theorem boroughSummaryOf_closure (t : List Request) (b : String) :
    (boroughSummaryOf t b).closure_rate
      = roundTo 3 ((closedIn t b : ℚ) / ((boroughRows t b).length : ℚ)) := rfl

theorem boroughSummaryOf_share (t : List Request) (b : String) :
    (boroughSummaryOf t b).market_share
      = (((boroughRows t b).length : ℚ) / ((boroughs t).length : ℚ)) * 100 := rfl

theorem boroughRows_length (t : List Request) (b : String) :
    (boroughRows t b).length = countKey (boroughs t) b := by
  unfold boroughRows boroughs countKey
  induction t with
  | nil => rfl
  | cons r rs ih =>
    cases hb : r.borough with
    | none => simp [List.filter_cons, List.filterMap_cons, hb, ih]
    | some x =>
      by_cases hx : x = b
      · subst hx
        simp [List.filter_cons, List.filterMap_cons, hb, ih]
      · simp [List.filter_cons, List.filterMap_cons, hb, hx, ih]

theorem mem_borough_stats {t : List Request} {b : String} {s : BoroughSummary}
    (h : (b, s) ∈ borough_stats t) :
    b ∈ boroughs t ∧ s = boroughSummaryOf t b := by
  unfold borough_stats at h
  have h2 := (List.perm_insertionSort _ _).mem_iff.mp h
  rw [List.mem_map] at h2
  obtain ⟨b2, hb2, heq⟩ := h2
  injection heq with e1 e2
  subst e1
  exact ⟨List.mem_dedup.mp hb2, e2.symm⟩

theorem sum_map_mul_const {α : Type} (l : List α) (f : α → ℚ) (c : ℚ) :
    (l.map fun x => f x * c).sum = (l.map f).sum * c := by
  induction l with
  | nil => simp
  | cons x xs ih => simp [ih, add_mul]

theorem filterMap_replicate_some {α β : Type} (f : α → Option β) (a : α)
    (b : β) (h : f a = some b) (n : Nat) :
    (List.replicate n a).filterMap f = List.replicate n b := by
  induction n with
  | zero => rfl
  | succ n ih => simp [List.replicate_succ, List.filterMap_cons, h, ih]

theorem filter_replicate_true {α : Type} (p : α → Bool) (a : α)
    (h : p a = true) (n : Nat) :
    (List.replicate n a).filter p = List.replicate n a := by
  induction n with
  | zero => rfl
  | succ n ih => simp [List.replicate_succ, List.filter_cons, h, ih]

theorem filter_replicate_false {α : Type} (p : α → Bool) (a : α)
    (h : p a = false) (n : Nat) :
    (List.replicate n a).filter p = [] := by
  induction n with
  | zero => rfl
  | succ n ih => simp [List.replicate_succ, List.filter_cons, h, ih]

theorem replicate_union_not_mem {α : Type} [DecidableEq α] {a : α}
    {l : List α} (h : a ∉ l) :
    ∀ n, n ≠ 0 → List.replicate n a ∪ l = a :: l := by
  intro n
  induction n with
  | zero => intro h0; exact absurd rfl h0
  | succ m ih =>
    intro _
    rw [List.replicate_succ, List.cons_union]
    rcases Nat.eq_zero_or_pos m with h0 | hpos
    · subst h0
      rw [List.replicate_zero, List.nil_union]
      exact List.insert_of_not_mem h
    · rw [ih (Nat.pos_iff_ne_zero.mp hpos)]
      exact List.insert_of_mem (List.mem_cons_self a l)

theorem exBoroughScen_boroughs :
    boroughs exBoroughScen
      = List.replicate 800 "Manhattan" ++ List.replicate 200 "Bronx" := by
  unfold boroughs exBoroughScen
  rw [List.filterMap_append, List.filterMap_append, List.filterMap_append]
  rw [filterMap_replicate_some (fun x : Request => x.borough)
      (reqIn "Manhattan" "Closed") "Manhattan" rfl,
    filterMap_replicate_some (fun x : Request => x.borough)
      (reqIn "Manhattan" "Open") "Manhattan" rfl,
    filterMap_replicate_some (fun x : Request => x.borough)
      (reqIn "Bronx" "Closed") "Bronx" rfl,
    filterMap_replicate_some (fun x : Request => x.borough)
      (reqIn "Bronx" "Open") "Bronx" rfl]
  rw [← List.replicate_add, List.append_assoc, ← List.replicate_add]

theorem exBoroughScen_dedup :
    (boroughs exBoroughScen).dedup = ["Manhattan", "Bronx"] := by
  rw [exBoroughScen_boroughs, List.dedup_append,
    List.replicate_dedup (by norm_num)]
  exact replicate_union_not_mem (by decide) 800 (by norm_num)

theorem exBoroughScen_rowsM :
    boroughRows exBoroughScen "Manhattan"
      = List.replicate 600 (reqIn "Manhattan" "Closed")
        ++ List.replicate 200 (reqIn "Manhattan" "Open") := by
  unfold boroughRows exBoroughScen
  rw [List.filter_append, List.filter_append, List.filter_append]
  rw [filter_replicate_true _ _ (by decide), filter_replicate_true _ _ (by decide),
    filter_replicate_false _ _ (by decide), filter_replicate_false _ _ (by decide)]
  simp

theorem exBoroughScen_rowsB :
    boroughRows exBoroughScen "Bronx"
      = List.replicate 100 (reqIn "Bronx" "Closed")
        ++ List.replicate 100 (reqIn "Bronx" "Open") := by
  unfold boroughRows exBoroughScen
  rw [List.filter_append, List.filter_append, List.filter_append]
  rw [filter_replicate_false _ _ (by decide), filter_replicate_false _ _ (by decide),
    filter_replicate_true _ _ (by decide), filter_replicate_true _ _ (by decide)]
  simp

theorem exBoroughScen_lenM :
    (boroughRows exBoroughScen "Manhattan").length = 800 := by
  rw [exBoroughScen_rowsM]
  simp

theorem exBoroughScen_lenB :
    (boroughRows exBoroughScen "Bronx").length = 200 := by
  rw [exBoroughScen_rowsB]
  simp

theorem exBoroughScen_closedM : closedIn exBoroughScen "Manhattan" = 600 := by
  unfold closedIn
  rw [exBoroughScen_rowsM, List.filter_append,
    filter_replicate_true _ _ (by decide), filter_replicate_false _ _ (by decide)]
  simp

theorem exBoroughScen_closedB : closedIn exBoroughScen "Bronx" = 100 := by
  unfold closedIn
  rw [exBoroughScen_rowsB, List.filter_append,
    filter_replicate_true _ _ (by decide), filter_replicate_false _ _ (by decide)]
  simp

theorem exBoroughScen_total : (boroughs exBoroughScen).length = 1000 := by
  rw [exBoroughScen_boroughs]
  simp

/-- C5: the claim asserts `closure_rate` equals closed/total exactly.
The aggregation result is rounded to three decimal places by the
`.round(3)` of line 156: for a borough with 1 closed request of 3, the
code stores `0.333`, not `1/3`. -/
theorem C5_counterexample :
    ((borough_stats exThirds).map fun p => (p.1, p.2.closure_rate))
        = [("B", 333 / 1000)]
      ∧ (333 / 1000 : ℚ) ≠ (1 : ℚ) / 3 := by
  refine ⟨?_, by norm_num⟩
  have hded : (boroughs exThirds).dedup = ["B"] := by decide
  have hrows : (boroughRows exThirds "B").length = 3 := by decide
  have hclosed : closedIn exThirds "B" = 1 := by decide
  unfold borough_stats
  rw [hded]
  simp only [List.map_cons, List.map_nil, List.insertionSort, List.orderedInsert]
  have hfl : Int.floor ((1 : ℚ) / 3 * 10 ^ 3) = 333 := by
    rw [Int.floor_eq_iff]
    norm_num
  rw [boroughSummaryOf_closure, hrows, hclosed]
  norm_num [roundTo, roundHalfEven, hfl]

/-- C5 (amended): per borough, `total_requests` is the borough's row
count, `closure_rate` is the count of Closed requests divided by the
total and then ROUNDED to three decimal places (half-to-even), and
`market_share` is the exact total divided by the grand total of
borough-carrying rows times 100; the shares sum to exactly 100 whenever
any row has a borough; in the concrete scenario (Manhattan 600 closed of
800, Bronx 100 closed of 200) the closure rates are 3/4 and 1/2 (exactly
representable, so unchanged by rounding) and the shares are 80 and 20. -/
theorem C5_regional_summary :
    (∀ (t : List Request) (b : String) (s : BoroughSummary),
        (b, s) ∈ borough_stats t →
        (s.total_requests = countKey (boroughs t) b
          ∧ s.closure_rate
              = roundTo 3 ((closedIn t b : ℚ) / (s.total_requests : ℚ))
          ∧ s.market_share
              = ((s.total_requests : ℚ) / ((boroughs t).length : ℚ)) * 100))
      ∧ (∀ t : List Request, boroughs t ≠ [] →
          ((borough_stats t).map fun p => p.2.market_share).sum = 100)
      ∧ ((borough_stats exBoroughScen).map fun p =>
            (p.1, p.2.closure_rate, p.2.market_share))
          = [("Manhattan", 3 / 4, 80), ("Bronx", 1 / 2, 20)] := by
  refine ⟨?_, ?_, ?_⟩
  · intro t b s h
    obtain ⟨hb, hs⟩ := mem_borough_stats h
    subst hs
    refine ⟨?_, ?_, ?_⟩
    · rw [boroughSummaryOf_total, boroughRows_length]
    · rw [boroughSummaryOf_closure, boroughSummaryOf_total]
    · rw [boroughSummaryOf_share, boroughSummaryOf_total]
  · intro t hne
    have hperm : List.Perm
        ((borough_stats t).map fun p => p.2.market_share)
        (((boroughs t).dedup.map fun b => (b, boroughSummaryOf t b)).map
          fun p => p.2.market_share) :=
      (List.perm_insertionSort _ _).map _
    rw [hperm.sum_eq, List.map_map]
    have hfn : ((fun p : String × BoroughSummary => p.2.market_share)
          ∘ fun b => (b, boroughSummaryOf t b))
        = fun b =>
            (((boroughRows t b).length : ℚ) / ((boroughs t).length : ℚ))
              * 100 := by
      funext b
      rfl
    rw [hfn]
    have hL : ((boroughs t).length : ℚ) ≠ 0 := by
      have h0 : (boroughs t).length ≠ 0 := by
        simpa [List.length_eq_zero] using hne
      exact_mod_cast h0
    have hstep : (fun b =>
          (((boroughRows t b).length : ℚ) / ((boroughs t).length : ℚ)) * 100)
        = fun b => ((boroughRows t b).length : ℚ)
            * (100 / ((boroughs t).length : ℚ)) := by
      funext b
      field_simp
    rw [hstep, sum_map_mul_const]
    have hsum : ((boroughs t).dedup.map
          fun b => ((boroughRows t b).length : ℚ)).sum
        = ((boroughs t).length : ℚ) := by
      have h1 : ((boroughs t).dedup.map fun b => ((boroughRows t b).length : ℚ))
          = ((boroughs t).dedup.map
              fun b => List.count b (boroughs t)).map fun n : Nat => (n : ℚ) := by
        rw [List.map_map]
        refine List.map_congr_left fun b _ => ?_
        rw [Function.comp_apply, boroughRows_length, countKey_eq_count]
      rw [h1, sum_map_natCast, List.sum_map_count_dedup_eq_length]
    rw [hsum]
    field_simp
  · unfold borough_stats
    rw [exBoroughScen_dedup]
    simp only [List.map_cons, List.map_nil, List.insertionSort,
      List.orderedInsert]
    rw [if_pos (by
      show (boroughSummaryOf exBoroughScen "Bronx").total_requests
          ≤ (boroughSummaryOf exBoroughScen "Manhattan").total_requests
      rw [boroughSummaryOf_total, boroughSummaryOf_total,
        exBoroughScen_lenM, exBoroughScen_lenB]
      norm_num)]
    simp only [List.map_cons, List.map_nil]
    rw [boroughSummaryOf_closure, boroughSummaryOf_closure,
      boroughSummaryOf_share, boroughSummaryOf_share,
      exBoroughScen_lenM, exBoroughScen_lenB,
      exBoroughScen_closedM, exBoroughScen_closedB, exBoroughScen_total]
    have hfm : Int.floor ((600 : ℚ) / 800 * 10 ^ 3) = 750 := by
      rw [Int.floor_eq_iff]
      norm_num
    have hfb : Int.floor ((100 : ℚ) / 200 * 10 ^ 3) = 500 := by
      rw [Int.floor_eq_iff]
      norm_num
    norm_num [roundTo, roundHalfEven, hfm, hfb]

/-- Witness for `C5_regional_summary` at the Manhattan/Bronx scenario. -/
theorem C5_regional_summary_witness :
    ((boroughSummaryOf exBoroughScen "Manhattan").total_requests
        = countKey (boroughs exBoroughScen) "Manhattan"
      ∧ (boroughSummaryOf exBoroughScen "Manhattan").closure_rate
          = roundTo 3 ((closedIn exBoroughScen "Manhattan" : ℚ)
              / ((boroughSummaryOf exBoroughScen "Manhattan").total_requests : ℚ))
      ∧ (boroughSummaryOf exBoroughScen "Manhattan").market_share
          = (((boroughSummaryOf exBoroughScen "Manhattan").total_requests : ℚ)
              / ((boroughs exBoroughScen).length : ℚ)) * 100)
      ∧ ((borough_stats exBoroughScen).map fun p => p.2.market_share).sum
          = 100 :=
  ⟨C5_regional_summary.1 exBoroughScen "Manhattan" _ (by
      unfold borough_stats
      refine (List.perm_insertionSort _ _).mem_iff.mpr ?_
      rw [List.mem_map, exBoroughScen_dedup]
      exact ⟨"Manhattan", by decide, rfl⟩),
    C5_regional_summary.2.1 exBoroughScen (by
      intro hnil
      have := exBoroughScen_total
      rw [hnil] at this
      cases this)⟩

end Metrics
